import Mathlib

/-!
Shallow embedding of the uTP socket state machine (`UtpSocket`) and the
in-memory content store (`StateDB`) of the ultralight Portal Network client,
together with theorems settling the specification claims about them.

Numbers held in the source as JavaScript `number` over sequence spaces are
modelled as `Nat`; `BigNumber` time quantities are modelled as `Int`, with
`Int.tdiv` mirroring the library's truncated integer division.
-/

/-- Default packet size (MTU). The constant is imported by the socket module;
its value, 1280 bytes, is the one the specification gives for the MTU. -/
def DEFAULT_PACKET_SIZE : Nat := 1280

/-- Modelled from the spec: the fixed 32-entry selective-ACK bit-to-offset
remap table `bitmap` imported by the socket module from outside the sources;
the specification describes it as the fixed permutation of the reference
implementation, to be reproduced verbatim. -/
def bitmap : List Nat :=
  [9, 10, 11, 12, 13, 14, 15, 16, 1, 2, 3, 4, 5, 6, 7, 8,
   25, 26, 27, 28, 29, 30, 31, 32, 17, 18, 19, 20, 21, 22, 23, 24]

/-- Connection states of a uTP socket (the source's `ConnectionState` enum;
the absent state is the constructor's `null`, modelled by `Option`). -/
inductive ConnectionState where
  | SynSent
  | SynRecv
  | Connected
  | GotFin
  | Closed
  | Reset
deriving DecidableEq, Repr

/-- Socket role, fixed at construction (`type: 'read' | 'write'`). -/
inductive SocketType where
  | read
  | write
deriving DecidableEq, Repr

/-- The packet-header fields the socket handlers inspect. -/
structure PacketHeader where
  seqNr : Nat
  ackNr : Nat
  timestampMicroseconds : Int
deriving DecidableEq, Repr

/-- Mutable state of a `UtpSocket`. `outBuffer` models the insertion-ordered
`Map<number, BigNumber>` as an association list with unique keys; `reader`
holds the starting sequence number of the content reader when one exists, and
`readerBuf` the sequence numbers handed to `reader.addPacket` (the reader
itself lives outside the socket module); `writer` records, when a writer is
attached, its `writing` flag. -/
structure UtpSocket where
  type : SocketType
  seqNr : Nat
  ackNr : Nat
  finNr : Option Nat
  state : Option ConnectionState
  max_window : Nat
  cur_window : Nat
  rtt : Int
  rtt_var : Int
  timeout : Int
  ackNrs : List Nat
  dataNrs : List Nat
  outBuffer : List (Nat × Int)
  reader : Option Nat
  readerBuf : List Nat
  writer : Option Bool
deriving DecidableEq, Repr

/-- Constructor state of a socket (`new UtpSocket(...)`): no reader, writer or
fin number, `max_window` of three packets, empty buffers. -/
def UtpSocket.init (type : SocketType) (seqNr ackNr : Nat) : UtpSocket :=
  { type := type
    seqNr := seqNr
    ackNr := ackNr
    finNr := none
    state := none
    max_window := DEFAULT_PACKET_SIZE * 3
    cur_window := 0
    rtt := 1000
    rtt_var := 0
    timeout := 1000
    ackNrs := []
    dataNrs := []
    outBuffer := []
    reader := none
    readerBuf := []
    writer := none }

/-- Insertion into the outgoing buffer with JavaScript `Map.set` semantics:
an existing key is overwritten in place, a new key is appended. -/
def obSet : List (Nat × Int) → Nat → Int → List (Nat × Int)
  | [], k, v => [(k, v)]
  | (k', v') :: rest, k, v =>
      if k' = k then (k, v) :: rest else (k', v') :: obSet rest k v

/-- Source `UtpSocket.sendDataPacket`: enter `Connected`, record the packet's
sequence number and send timestamp in the outgoing buffer, recompute
`cur_window` from the buffer size, and advance `seqNr`. -/
def UtpSocket.sendDataPacket (s : UtpSocket) (p : PacketHeader) : UtpSocket :=
  let ob := obSet s.outBuffer p.seqNr p.timestampMicroseconds
  { s with
    state := some ConnectionState.Connected
    outBuffer := ob
    cur_window := ob.length * DEFAULT_PACKET_SIZE
    seqNr := s.seqNr + 1 }

/-- Source `UtpSocket.updateRTT`: smoothed round-trip estimators updated with
truncated integer division (`BigNumber.div`), and the timeout reset to
`rtt + rtt_var * 4` when that exceeds 500, to 500 otherwise. -/
def UtpSocket.updateRTT (s : UtpSocket) (packetRTT : Int) : UtpSocket :=
  let delta := s.rtt - packetRTT
  let rtt_var := s.rtt_var + Int.tdiv (|delta| - s.rtt_var) 4
  let rtt := s.rtt + Int.tdiv (packetRTT - s.rtt) 8
  let timeout := if rtt + rtt_var * 4 > 500 then rtt + rtt_var * 4 else 500
  { s with rtt_var := rtt_var, rtt := rtt, timeout := timeout }

/-- Source `UtpSocket.throttle`: collapse `max_window` to one packet and
double the timeout. -/
def UtpSocket.throttle (s : UtpSocket) : UtpSocket :=
  { s with max_window := DEFAULT_PACKET_SIZE, timeout := s.timeout * 2 }

/-! ### StateDB (in-memory content store) -/

/-- Hexadecimal digit of a value below 16, lower case. -/
def hexDigit (n : Nat) : Char :=
  if n < 10 then Char.ofNat (48 + n) else Char.ofNat (87 + n)

/-- Two-digit lower-case hexadecimal rendering of a byte. -/
def byteToHex (n : Nat) : String :=
  String.mk [hexDigit (n / 16 % 16), hexDigit (n % 16)]

/-- Hex string of a byte array with `0x` prefix (the `toHexString` helper the
store uses to key its underlying map). -/
def toHexString (bytes : List Nat) : String :=
  "0x" ++ String.join (bytes.map byteToHex)

/-- The in-memory key-value store backing `StateDB` (`MemoryLevel`), as an
association list where `put` overwrites an existing key. -/
structure StateDB where
  db : List (String × List Nat)
deriving DecidableEq, Repr

/-- Overwriting insertion into the key-value store. -/
def dbPut : List (String × List Nat) → String → List Nat → List (String × List Nat)
  | [], k, v => [(k, v)]
  | (k', v') :: rest, k, v =>
      if k' = k then (k, v) :: rest else (k', v') :: dbPut rest k v

/-- Source `StateDB.storeContent`: put the content under the hex-encoded
content key and report `true`. -/
def StateDB.storeContent (d : StateDB) (contentKey content : List Nat) :
    StateDB × Bool :=
  ({ db := dbPut d.db (toHexString contentKey) content }, true)

/-- Source `StateDB.getContent`: look the hex-encoded content key up in the
store. -/
def StateDB.getContent (d : StateDB) (contentKey : List Nat) : Option (List Nat) :=
  d.db.lookup (toHexString contentKey)

/-- Looking up the key just written finds the written value. -/
theorem lookup_dbPut_self (db : List (String × List Nat)) (k : String) (v : List Nat) :
    (dbPut db k v).lookup k = some v := by
  induction db with
  | nil => simp [dbPut, List.lookup]
  | cons hd tl ih =>
      obtain ⟨k', v'⟩ := hd
      by_cases h : k' = k
      · simp [dbPut, h, List.lookup]
      · simp only [dbPut, if_neg h, List.lookup]
        have : (k == k') = false := by
          simp [beq_iff_eq]
          exact fun hk => h hk.symm
        simp [this, ih]

/-! ### Selective-ACK bitmask and the reader's DATA path -/

/-- Source `UtpSocket.generateSelectiveAckBitMask`, as the 32-entry boolean
window the loop builds before SSZ serialization: for each `i` below 32 whose
sequence number `ackNr + 1 + i` has been received, the entry at index
`bitmap[i] - 1` is set. -/
def generateSelectiveAckBitMask (ackNr : Nat) (ackNrs : List Nat) : List Bool :=
  (List.range 32).foldl
    (fun w i =>
      if ackNr + 1 + i ∈ ackNrs then w.set (bitmap.getD i 0 - 1) true else w)
    (List.replicate 32 false)

/-- The window the specification claims for the selective ACK: the entry at
index `bitmap[i] - 1` is set exactly when sequence number `ackNr + 2 + i` has
been received. -/
def claimedSelAckWindow (ackNr : Nat) (ackNrs : List Nat) : List Bool :=
  (List.range 32).foldl
    (fun w i =>
      if ackNr + 2 + i ∈ ackNrs then w.set (bitmap.getD i 0 - 1) true else w)
    (List.replicate 32 false)

/-- First element of a sorted list whose listed successor is not its numeric
successor: the value `this.ackNrs.sort(...).find((n, i) => ackNrs[i+1] !== n+1)`
computes (on a nonempty list the JavaScript `find` always produces a value,
the last element at the latest). -/
def firstRunEnd : List Nat → Option Nat
  | [] => none
  | [n] => some n
  | n :: m :: rest => if m = n + 1 then firstRunEnd (m :: rest) else some n

/-- Fuelled computation of the largest sequence number reachable from `a` by
consecutive steps through the received list. -/
def lcAux : Nat → Nat → List Nat → Nat
  | 0, a, _ => a
  | fuel + 1, a, received =>
      if a + 1 ∈ received then lcAux fuel (a + 1) (received.erase (a + 1)) else a

/-- Largest `s` such that every sequence number in `a + 1 .. s` occurs in
`received` — the largest contiguous received sequence number above `a` that
the specification describes. -/
def largestContiguousFrom (a : Nat) (received : List Nat) : Nat :=
  lcAux received.length a received

/-- Reply emitted by the reader's DATA handler. -/
inductive DataReply where
  | plainState
  | selectiveState (mask : List Bool)
deriving DecidableEq, Repr

/-- Source `UtpSocket.handleDataPacket`: enter `Connected`, advance `seqNr`,
create the reader on first contact, hand the packet to the reader, and record
its sequence number; an in-order packet (`seqNr = ackNr + 1`) bumps `ackNr`
to the end of the first run of the sorted received list (sorting in place)
and elicits a plain STATE, an out-of-order packet leaves `ackNr` alone and
elicits a STATE carrying the selective-ACK bitmask. -/
def UtpSocket.handleDataPacket (s : UtpSocket) (p : PacketHeader) :
    UtpSocket × DataReply :=
  let reader' := match s.reader with
    | none => some p.seqNr
    | some r => some r
  let readerBuf' := s.readerBuf ++ [p.seqNr]
  let ackNrs' := s.ackNrs ++ [p.seqNr]
  if s.ackNr + 1 = p.seqNr then
    let sorted := List.insertionSort (· ≤ ·) ackNrs'
    let newAck := (firstRunEnd sorted).getD (ackNrs'.foldr max 0)
    ({ s with
        state := some ConnectionState.Connected
        seqNr := s.seqNr + 1
        reader := reader'
        readerBuf := readerBuf'
        ackNrs := sorted
        ackNr := newAck },
      DataReply.plainState)
  else
    ({ s with
        state := some ConnectionState.Connected
        seqNr := s.seqNr + 1
        reader := reader'
        readerBuf := readerBuf'
        ackNrs := ackNrs' },
      DataReply.selectiveState (generateSelectiveAckBitMask s.ackNr ackNrs'))

/-! ### STATE and FIN handlers -/

/-- Outcome of `handleStatePacket`: the acked FIN closing the socket, the
reader acking back, the writer observing completion, the writer resuming, or
nothing further. -/
inductive StateReply where
  | finAcked
  | ackSent
  | allAcked
  | writerResumed
  | noAction
deriving DecidableEq, Repr

/-- Source `UtpSocket.compare`: the sorted sent and acked sequence-number
lists serialize identically. -/
def UtpSocket.compare (s : UtpSocket) : Bool :=
  List.insertionSort (· ≤ ·) s.dataNrs = List.insertionSort (· ≤ ·) s.ackNrs

/-- Source `UtpSocket.handleStatePacket`: a STATE acking `finNr` closes the
socket; a reader socket enters `Connected` and acks back; a writer socket
enters `Connected`, recomputes `cur_window` from the outgoing buffer when a
writer is attached (its sort calls leave `dataNrs` and `ackNrs` sorted),
reports completion when the sorted lists agree, and otherwise resumes a
writing writer. -/
def UtpSocket.handleStatePacket (s : UtpSocket) (p : PacketHeader) :
    UtpSocket × StateReply :=
  if s.finNr = some p.ackNr then
    ({ s with state := some ConnectionState.Closed }, StateReply.finAcked)
  else if s.type = SocketType.read then
    ({ s with state := some ConnectionState.Connected }, StateReply.ackSent)
  else
    let s1 := { s with state := some ConnectionState.Connected }
    let s2 :=
      if s.writer.isSome then
        { s1 with cur_window := s1.outBuffer.length * DEFAULT_PACKET_SIZE }
      else s1
    let sortedData := List.insertionSort (· ≤ ·) s.dataNrs
    let sortedAck := List.insertionSort (· ≤ ·) s.ackNrs
    let s3 := { s2 with dataNrs := sortedData, ackNrs := sortedAck }
    if sortedData = sortedAck then (s3, StateReply.allAcked)
    else
      (s3, if s.writer.getD false then StateReply.writerResumed
           else StateReply.noAction)

/-- Observable actions of the FIN handler, in order. -/
inductive FinAction where
  | readerRun
  | stateSent
deriving DecidableEq, Repr

/-- Source `UtpSocket.handleFinPacket`: enter `GotFin`, run the reader (the
non-null assertion `this.reader!` fails when no reader exists, modelled by
`none`), advance `seqNr`, set `ackNr` to the FIN's sequence number, and send
a STATE packet. `finNr` is not touched. -/
def UtpSocket.handleFinPacket (s : UtpSocket) (p : PacketHeader) :
    Option (UtpSocket × List FinAction) :=
  match s.reader with
  | none => none
  | some _ =>
      some
        ({ s with
            state := some ConnectionState.GotFin
            seqNr := s.seqNr + 1
            ackNr := p.seqNr },
          [FinAction.readerRun, FinAction.stateSent])

/-! ### Characterization of the selective-ACK window -/

/-- Reading an entry after `set`: the written index is seen exactly when it is
the one read and lies inside the list. -/
theorem getD_set (w : List Bool) (k j : Nat) (b : Bool) :
    (w.set k b).getD j false =
      if k = j ∧ j < w.length then b else w.getD j false := by
  induction w generalizing k j with
  | nil => simp [List.set]
  | cons hd tl ih =>
      cases k with
      | zero =>
          cases j with
          | zero => simp [List.set, List.getD]
          | succ j => simp [List.set, List.getD]
      | succ k =>
          cases j with
          | zero => simp [List.set, List.getD]
          | succ j =>
              simp only [List.set, List.getD_cons_succ, List.length_cons, ih]
              by_cases h : k = j ∧ j < tl.length
              · rw [if_pos h, if_pos ⟨by omega, by omega⟩]
              · rw [if_neg h, if_neg (by omega)]

/-- Folding conditional single-index writes over a list of loop indices reads
back as a disjunction over the loop indices. -/
theorem foldl_set_getD (P : Nat → Prop) [DecidablePred P] (idx : Nat → Nat)
    (L : List Nat) (w : List Bool) (j : Nat) :
    (L.foldl (fun w i => if P i then w.set (idx i) true else w) w).getD j false =
      (w.getD j false ||
        L.any fun i => decide (P i) && decide (idx i = j) && decide (j < w.length)) := by
  induction L generalizing w with
  | nil => simp
  | cons i L ih =>
      have hstep :
          (if P i then w.set (idx i) true else w).getD j false =
            (w.getD j false ||
              (decide (P i) && decide (idx i = j) && decide (j < w.length))) := by
        by_cases hc : P i
        · rw [if_pos hc, getD_set]
          by_cases hij : idx i = j ∧ j < w.length
          · rw [if_pos hij]
            simp [hc, hij.1, hij.2]
          · rw [if_neg hij]
            rcases Decidable.not_and_iff_or_not.mp hij with h | h <;> simp [h]
        · rw [if_neg hc]
          simp [hc]
      have hlen : (if P i then w.set (idx i) true else w).length = w.length := by
        by_cases hc : P i <;> simp [hc]
      rw [List.foldl_cons, ih, hlen, hstep, List.any_cons, Bool.or_assoc]

/-- A replicated-false window reads false at every index. -/
theorem getD_replicate_false (n j : Nat) :
    (List.replicate n false).getD j false = false := by
  induction n generalizing j with
  | zero => simp [List.getD]
  | succ n ih =>
      cases j with
      | zero => simp [List.replicate, List.getD]
      | succ j => simp [List.replicate, List.getD_cons_succ, ih]

/-- Entries of the remap table are between 1 and 32. -/
theorem bitmap_mem_range : ∀ i, i < 32 → 1 ≤ bitmap.getD i 0 ∧ bitmap.getD i 0 ≤ 32 := by
  decide

/-- The remap table is injective on its 32 positions. -/
theorem bitmap_inj :
    ∀ i, i < 32 → ∀ i', i' < 32 →
      bitmap.getD i 0 = bitmap.getD i' 0 → i = i' := by
  decide

/-- Claim C1, amended: the window generated for a selective ACK sets, for each
`i` below 32, the entry at index `bitmap[i] - 1` exactly when sequence number
`ackNr + 1 + i` (not `ackNr + 2 + i`) has been received; since the table
permutes all 32 indices, this fixes every bit of the mask. -/
theorem claim_C1_amended (ackNr : Nat) (ackNrs : List Nat) (i : Nat)
    (hi : i < 32) :
    (generateSelectiveAckBitMask ackNr ackNrs).getD (bitmap.getD i 0 - 1) false =
      decide (ackNr + 1 + i ∈ ackNrs) := by
  have hidx : bitmap.getD i 0 - 1 < 32 := by
    have := bitmap_mem_range i hi
    omega
  rw [generateSelectiveAckBitMask,
    foldl_set_getD (fun i' => ackNr + 1 + i' ∈ ackNrs)
      (fun i' => bitmap.getD i' 0 - 1)]
  rw [getD_replicate_false, Bool.false_or]
  simp only [List.length_replicate, decide_eq_true hidx, Bool.and_true]
  rcases hmem : decide (ackNr + 1 + i ∈ ackNrs) with _ | _
  · rw [List.any_eq_false]
    intro i' hi'
    have hi'32 : i' < 32 := List.mem_range.mp hi'
    by_cases heq : bitmap.getD i' 0 - 1 = bitmap.getD i 0 - 1
    · have hbm : bitmap.getD i' 0 = bitmap.getD i 0 := by
        have h1 := bitmap_mem_range i hi
        have h2 := bitmap_mem_range i' hi'32
        omega
      have : i' = i := bitmap_inj i' hi'32 i hi hbm
      subst this
      simp [hmem]
    · simp only [decide_eq_false heq, Bool.and_false]
      simp
  · rw [List.any_eq_true]
    refine ⟨i, List.mem_range.mpr hi, ?_⟩
    simp [hmem]

/-- Claim C1, counterexample: with `ack_nr = 100` and received out-of-order
`{102, 104, 133}`, the generated window differs from the window the claim
describes; in particular the bit at index `bitmap[31] - 1` — which the claim
places for sequence number 133 — is clear. -/
theorem claim_C1_counterexample :
    generateSelectiveAckBitMask 100 [102, 104, 133] ≠
        claimedSelAckWindow 100 [102, 104, 133] ∧
      (generateSelectiveAckBitMask 100 [102, 104, 133]).getD
          (bitmap.getD 31 0 - 1) false = false ∧
      (claimedSelAckWindow 100 [102, 104, 133]).getD
          (bitmap.getD 31 0 - 1) false = true := by
  refine ⟨by decide, by decide, by decide⟩

/-- Claim C1, witness: at `ack_nr = 100` with received `{102, 104, 133}` the
amended description evaluates as proved: the bit for `i = 1` (sequence 102)
is set. -/
theorem claim_C1_amended_witness :
    (generateSelectiveAckBitMask 100 [102, 104, 133]).getD
        (bitmap.getD 1 0 - 1) false = decide ((102 : Nat) ∈ [102, 104, 133]) :=
  claim_C1_amended 100 [102, 104, 133] 1 (by decide)

/-! ### The in-order acknowledgement bump -/

/-- On a strictly sorted nonempty list, `firstRunEnd` yields the end of the
initial run: every value from the head up to it is present, and its successor
is absent. -/
theorem firstRunEnd_spec :
    ∀ (xs : List Nat) (x : Nat), (x :: xs).Sorted (· < ·) →
      ∃ r, firstRunEnd (x :: xs) = some r ∧ x ≤ r ∧
        (∀ m, x ≤ m → m ≤ r → m ∈ x :: xs) ∧ r + 1 ∉ x :: xs := by
  intro xs
  induction xs with
  | nil =>
      intro x _
      refine ⟨x, rfl, le_refl x, ?_, ?_⟩
      · intro m hxm hmx
        have : m = x := le_antisymm hmx hxm
        simp [this]
      · simp
  | cons y rest ih =>
      intro x hsort
      have hxy : x < y := (List.sorted_cons.mp hsort).1 y (by simp)
      have htail : (y :: rest).Sorted (· < ·) := (List.sorted_cons.mp hsort).2
      by_cases hy : y = x + 1
      · obtain ⟨r, hfr, hyr, hmem, hnext⟩ := ih y htail
        refine ⟨r, ?_, ?_, ?_, ?_⟩
        · rw [firstRunEnd, if_pos hy, hfr]
        · omega
        · intro m hxm hmr
          rcases Nat.eq_or_lt_of_le hxm with h | h
          · simp [h.symm]
          · have : y ≤ m := by omega
            exact List.mem_cons_of_mem x (hmem m this hmr)
        · intro hc
          rcases List.mem_cons.mp hc with h | h
          · omega
          · exact hnext h
      · refine ⟨x, ?_, le_refl x, ?_, ?_⟩
        · rw [firstRunEnd, if_neg hy]
        · intro m hxm hmx
          have : m = x := le_antisymm hmx hxm
          simp [this]
        · intro hc
          rcases List.mem_cons.mp hc with h | h
          · omega
          · rcases List.mem_cons.mp h with h' | h'
            · omega
            · have : y < x + 1 := by
                have := (List.sorted_cons.mp htail).1 _ h'
                omega
              omega

/-- Specification of the fuelled largest-contiguous computation on a
duplicate-free list with enough fuel: the result is at least the start, every
value strictly between start and result is present, and the successor of the
result is absent. -/
theorem lcAux_spec :
    ∀ (fuel a : Nat) (T : List Nat), T.Nodup → T.length ≤ fuel →
      a ≤ lcAux fuel a T ∧
        (∀ m, a < m → m ≤ lcAux fuel a T → m ∈ T) ∧
        lcAux fuel a T + 1 ∉ T := by
  intro fuel
  induction fuel with
  | zero =>
      intro a T _ hlen
      have hT : T = [] := List.eq_nil_of_length_eq_zero (by omega)
      subst hT
      simp only [lcAux]
      refine ⟨le_refl a, ?_, by simp⟩
      intro m h1 h2
      omega
  | succ fuel ih =>
      intro a T hnd hlen
      by_cases hmem : a + 1 ∈ T
      · have hlen' : (T.erase (a + 1)).length ≤ fuel := by
          rw [List.length_erase_of_mem hmem]
          have : 1 ≤ T.length := List.length_pos.mpr (by
            intro h
            rw [h] at hmem
            exact (List.not_mem_nil _) hmem)
          omega
        obtain ⟨h1, h2, h3⟩ := ih (a + 1) (T.erase (a + 1)) (hnd.erase _) hlen'
        have heq : lcAux (fuel + 1) a T = lcAux fuel (a + 1) (T.erase (a + 1)) := by
          simp only [lcAux]
          rw [if_pos hmem]
        rw [heq]
        refine ⟨by omega, ?_, ?_⟩
        · intro m hma hmr
          rcases Nat.eq_or_lt_of_le (Nat.succ_le_of_lt hma) with h | h
          · rw [← h]
            exact hmem
          · exact List.erase_subset _ _ (h2 m (by omega) hmr)
        · intro hc
          have hne : lcAux fuel (a + 1) (T.erase (a + 1)) + 1 ≠ a + 1 := by omega
          exact h3 ((List.mem_erase_of_ne hne).mpr hc)
      · have heq : lcAux (fuel + 1) a T = a := by
          simp only [lcAux]
          rw [if_neg hmem]
        rw [heq]
        refine ⟨le_refl a, ?_, hmem⟩
        intro m h1 h2
        omega

/-- A run end above `a` through `T` is unique: being at least `a`, containing
every value in between, and stopping at an absent successor pin the value. -/
theorem runEnd_unique (a r1 r2 : Nat) (T : List Nat)
    (h1a : a ≤ r1) (h1m : ∀ m, a < m → m ≤ r1 → m ∈ T) (h1n : r1 + 1 ∉ T)
    (h2a : a ≤ r2) (h2m : ∀ m, a < m → m ≤ r2 → m ∈ T) (h2n : r2 + 1 ∉ T) :
    r1 = r2 := by
  rcases lt_trichotomy r1 r2 with h | h | h
  · exact absurd (h2m (r1 + 1) (by omega) (by omega)) h1n
  · exact h
  · exact absurd (h1m (r2 + 1) (by omega) (by omega)) h2n

/-- The value the in-order DATA path assigns to `ackNr` — the end of the
first run of the sorted received list — equals the largest contiguous
received sequence number above the old `ackNr`, provided the received list
has no duplicates, contains the old `ackNr + 1`, and has no gap between its
smallest entry and the old `ackNr`. -/
theorem firstRunEnd_sort_eq_lc (a : Nat) (T : List Nat) (d : Nat)
    (hseq : a + 1 ∈ T) (hnd : T.Nodup)
    (hrun : ∀ m, (∃ x ∈ T, x ≤ m) → m ≤ a → m ∈ T) :
    (firstRunEnd (List.insertionSort (· ≤ ·) T)).getD d =
      largestContiguousFrom a T := by
  have hperm : (List.insertionSort (· ≤ ·) T).Perm T := List.perm_insertionSort _ _
  have hsorted_le : (List.insertionSort (· ≤ ·) T).Sorted (· ≤ ·) :=
    List.sorted_insertionSort _ _
  have hndS : (List.insertionSort (· ≤ ·) T).Nodup := hperm.nodup_iff.mpr hnd
  have hsorted : (List.insertionSort (· ≤ ·) T).Sorted (· < ·) :=
    hsorted_le.lt_of_le hndS
  have hmemS : ∀ x : Nat, x ∈ List.insertionSort (· ≤ ·) T ↔ x ∈ T :=
    fun x => hperm.mem_iff
  rcases hSne : List.insertionSort (· ≤ ·) T with _ | ⟨x, xs⟩
  · exfalso
    have := (hmemS (a + 1)).mpr hseq
    rw [hSne] at this
    exact (List.not_mem_nil _) this
  · rw [hSne] at hsorted hmemS
    obtain ⟨r, hfr, hxr, hmemr, hnext⟩ := firstRunEnd_spec xs x hsorted
    have hxmin : x ≤ a + 1 := by
      have hmem : a + 1 ∈ x :: xs := (hmemS (a + 1)).mpr hseq
      rcases List.mem_cons.mp hmem with h | h
      · omega
      · exact ((List.sorted_cons.mp hsorted).1 _ h).le
    have hra : a + 1 ≤ r := by
      by_contra hlt
      push_neg at hlt
      have hxa : x ≤ a := by omega
      rcases Nat.lt_or_ge (r + 1) (a + 1) with hr1 | hr1
      · have hxT : x ∈ T := (hmemS x).mp (by simp)
        have : r + 1 ∈ T := hrun (r + 1) ⟨x, hxT, by omega⟩ (by omega)
        exact hnext ((hmemS (r + 1)).mpr this)
      · have : r + 1 = a + 1 := by omega
        rw [this] at hnext
        exact hnext ((hmemS (a + 1)).mpr hseq)
    have hmm : ∀ m, a < m → m ≤ r → m ∈ T := by
      intro m hma hmr
      exact (hmemS m).mp (hmemr m (by omega) hmr)
    have hnn : r + 1 ∉ T := fun hc => hnext ((hmemS (r + 1)).mpr hc)
    obtain ⟨l1, l2, l3⟩ :=
      lcAux_spec T.length a T hnd (le_refl _)
    have hru : r = lcAux T.length a T :=
      runEnd_unique a r (lcAux T.length a T) T (by omega) hmm hnn l1 l2 l3
    rw [hfr, Option.getD_some, largestContiguousFrom, hru]

/-- Claim C3, amended: on a reader socket, an in-order DATA packet
(`seq_nr = ack_nr + 1`) is handed to the reader and answered with a plain
STATE, and — provided no duplicate sequence number has been received and
every value between the smallest received one and `ack_nr` was received,
both of which hold along duplicate-free operation — `ack_nr` is bumped to
the largest contiguous received sequence number; an out-of-order packet is
buffered, leaves `ack_nr` unchanged, and is answered with a STATE carrying
the selective-ACK bitmask. -/
theorem claim_C3_amended (s : UtpSocket) (p : PacketHeader)
    (hnd : (s.ackNrs ++ [p.seqNr]).Nodup)
    (hrun : ∀ m, (∃ x ∈ s.ackNrs, x ≤ m) → m ≤ s.ackNr → m ∈ s.ackNrs) :
    (s.ackNr + 1 = p.seqNr →
        (s.handleDataPacket p).2 = DataReply.plainState ∧
        (s.handleDataPacket p).1.ackNr =
          largestContiguousFrom s.ackNr (s.ackNrs ++ [p.seqNr])) ∧
      (s.ackNr + 1 ≠ p.seqNr →
        (s.handleDataPacket p).2 =
          DataReply.selectiveState
            (generateSelectiveAckBitMask s.ackNr (s.ackNrs ++ [p.seqNr])) ∧
        (s.handleDataPacket p).1.ackNr = s.ackNr) ∧
      (s.handleDataPacket p).1.readerBuf = s.readerBuf ++ [p.seqNr] ∧
      (s.handleDataPacket p).1.state = some ConnectionState.Connected ∧
      (s.handleDataPacket p).1.seqNr = s.seqNr + 1 := by
  by_cases hexp : s.ackNr + 1 = p.seqNr
  · have hrunT : ∀ m, (∃ x ∈ s.ackNrs ++ [p.seqNr], x ≤ m) → m ≤ s.ackNr →
        m ∈ s.ackNrs ++ [p.seqNr] := by
      intro m ⟨x, hx, hxm⟩ hma
      rcases List.mem_append.mp hx with h | h
      · exact List.mem_append_left _ (hrun m ⟨x, h, hxm⟩ hma)
      · have : x = p.seqNr := by simpa using h
        omega
    have hseq : s.ackNr + 1 ∈ s.ackNrs ++ [p.seqNr] := by
      rw [hexp]
      exact List.mem_append_right _ (by simp)
    refine ⟨fun _ => ⟨?_, ?_⟩, fun hc => absurd hexp hc, ?_, ?_, ?_⟩
    · simp only [UtpSocket.handleDataPacket, if_pos hexp]
    · simp only [UtpSocket.handleDataPacket, if_pos hexp]
      exact firstRunEnd_sort_eq_lc s.ackNr (s.ackNrs ++ [p.seqNr]) _ hseq hnd hrunT
    · simp only [UtpSocket.handleDataPacket, if_pos hexp]
    · simp only [UtpSocket.handleDataPacket, if_pos hexp]
    · simp only [UtpSocket.handleDataPacket, if_pos hexp]
  · refine ⟨fun hc => absurd hc hexp, fun _ => ⟨?_, ?_⟩, ?_, ?_, ?_⟩ <;>
      simp only [UtpSocket.handleDataPacket, if_neg hexp]

/-- Reader socket used to exercise the DATA handler on concrete input. -/
def dataChainS0 : UtpSocket := UtpSocket.init SocketType.read 100 4

/-- State after receiving DATA 5 in order. -/
def dataChainS1 : UtpSocket := (dataChainS0.handleDataPacket ⟨5, 0, 0⟩).1

/-- State after a duplicate delivery of DATA 5 (buffered out of order). -/
def dataChainS2 : UtpSocket := (dataChainS1.handleDataPacket ⟨5, 0, 0⟩).1

/-- State after receiving DATA 6, which is in order (`ack_nr + 1 = 6`). -/
def dataChainS3 : UtpSocket := (dataChainS2.handleDataPacket ⟨6, 0, 0⟩).1

/-- Claim C3, counterexample: after DATA 5, a duplicate DATA 5 and DATA 6,
the in-order handling of DATA 6 leaves `ack_nr` at 5, although the largest
contiguous received sequence number is 6 — the claim fails once a duplicate
has been buffered. -/
theorem claim_C3_counterexample :
    dataChainS2.ackNr + 1 = (6 : Nat) ∧
      dataChainS2.ackNrs = [5, 5] ∧
      dataChainS3.ackNr = 5 ∧
      largestContiguousFrom dataChainS2.ackNr (dataChainS2.ackNrs ++ [6]) = 6 ∧
      (5 : Nat) ≠ 6 := by
  decide

/-- Reader socket with one received packet, for the C3 witness. -/
def dataWitnessSock : UtpSocket :=
  { UtpSocket.init SocketType.read 100 5 with ackNrs := [5] }

/-- Claim C3, witness: on a duplicate-free socket that has received packet 5
(with `ack_nr = 5`), the amended theorem applies to the in-order packet 6 and
the out-of-order description holds vacuously. -/
theorem claim_C3_amended_witness :
    (dataWitnessSock.ackNr + 1 = (6 : Nat) →
        (dataWitnessSock.handleDataPacket ⟨6, 0, 0⟩).2 = DataReply.plainState ∧
        (dataWitnessSock.handleDataPacket ⟨6, 0, 0⟩).1.ackNr =
          largestContiguousFrom dataWitnessSock.ackNr (dataWitnessSock.ackNrs ++ [6])) ∧
      (dataWitnessSock.ackNr + 1 ≠ (6 : Nat) →
        (dataWitnessSock.handleDataPacket ⟨6, 0, 0⟩).2 =
          DataReply.selectiveState
            (generateSelectiveAckBitMask dataWitnessSock.ackNr
              (dataWitnessSock.ackNrs ++ [6])) ∧
        (dataWitnessSock.handleDataPacket ⟨6, 0, 0⟩).1.ackNr = dataWitnessSock.ackNr) ∧
      (dataWitnessSock.handleDataPacket ⟨6, 0, 0⟩).1.readerBuf =
        dataWitnessSock.readerBuf ++ [6] ∧
      (dataWitnessSock.handleDataPacket ⟨6, 0, 0⟩).1.state =
        some ConnectionState.Connected ∧
      (dataWitnessSock.handleDataPacket ⟨6, 0, 0⟩).1.seqNr =
        dataWitnessSock.seqNr + 1 :=
  claim_C3_amended dataWitnessSock ⟨6, 0, 0⟩ (by decide)
    (by
      intro m hm hma
      obtain ⟨x, hx, hxm⟩ := hm
      have : x = 5 := by simpa [dataWitnessSock, UtpSocket.init] using hx
      have h5 : m = 5 := by
        subst this
        have : m ≤ 5 := by simpa [dataWitnessSock, UtpSocket.init] using hma
        omega
      simp [dataWitnessSock, UtpSocket.init, h5])

/-! ### FIN handling (claim C2) -/

/-- Claim C2, amended: handling a FIN on a socket with a reader runs the
reader, sends a STATE, enters `GotFin` (and stays there — `Closed` is reached
only when an own FIN is acked in `handleStatePacket`), advances `seqNr`, and
records the FIN's sequence number in `ack_nr`, leaving `fin_nr` untouched. -/
theorem claim_C2_amended (s : UtpSocket) (p : PacketHeader) (r : Nat)
    (hr : s.reader = some r) :
    s.handleFinPacket p =
      some
        ({ s with
            state := some ConnectionState.GotFin
            seqNr := s.seqNr + 1
            ackNr := p.seqNr },
          [FinAction.readerRun, FinAction.stateSent]) := by
  rw [UtpSocket.handleFinPacket, hr]

/-- Socket mid-transfer used for the C2 counterexample and witness. -/
def finSock : UtpSocket :=
  { UtpSocket.init SocketType.read 20 6 with
      state := some ConnectionState.Connected
      reader := some 5
      ackNrs := [5, 6] }

/-- Claim C2, counterexample: handling a FIN with sequence number 7 on a
connected reader socket leaves `fin_nr` unset (the handler writes `ack_nr`
instead) and leaves the socket in `GotFin`, not `Closed`. -/
theorem claim_C2_counterexample :
    ((finSock.handleFinPacket ⟨7, 0, 0⟩).map fun r => (r.1.finNr, r.1.state)) =
        some (none, some ConnectionState.GotFin) ∧
      (none : Option Nat) ≠ some 7 ∧
      some ConnectionState.GotFin ≠ some ConnectionState.Closed := by
  decide

/-- Claim C2, witness: the amended theorem applied to the connected reader
socket and a FIN with sequence number 7. -/
theorem claim_C2_amended_witness :
    finSock.handleFinPacket ⟨7, 0, 0⟩ =
      some
        ({ finSock with
            state := some ConnectionState.GotFin
            seqNr := finSock.seqNr + 1
            ackNr := 7 },
          [FinAction.readerRun, FinAction.stateSent]) :=
  claim_C2_amended finSock ⟨7, 0, 0⟩ 5 (by decide)

/-! ### Terminal states (claim C4) -/

/-- Claim C4, amended: the packet handlers contain no stale-connection guard.
A DATA packet arriving on a socket in a terminal state (`Closed` or `Reset`)
is processed normally: the state is overwritten with `Connected`, `seqNr` is
advanced, the sequence number is recorded, and a reply is produced; a STATE
packet that does not ack `fin_nr` likewise moves the socket to `Connected`.
Dropping with StaleConnection, if it happens at all, happens outside these
handlers. -/
theorem claim_C4_amended (s : UtpSocket) (p : PacketHeader)
    (hterm : s.state = some ConnectionState.Closed ∨
      s.state = some ConnectionState.Reset) :
    (s.handleDataPacket p).1.state = some ConnectionState.Connected ∧
      (s.handleDataPacket p).1.seqNr = s.seqNr + 1 ∧
      (s.finNr ≠ some p.ackNr →
        (s.handleStatePacket p).1.state = some ConnectionState.Connected) := by
  refine ⟨?_, ?_, ?_⟩
  · simp only [UtpSocket.handleDataPacket]
    by_cases hexp : s.ackNr + 1 = p.seqNr
    · rw [if_pos hexp]
    · rw [if_neg hexp]
  · simp only [UtpSocket.handleDataPacket]
    by_cases hexp : s.ackNr + 1 = p.seqNr
    · rw [if_pos hexp]
    · rw [if_neg hexp]
  · intro hfin
    rw [UtpSocket.handleStatePacket, if_neg (by simpa using hfin)]
    by_cases hty : s.type = SocketType.read
    · rw [if_pos hty]
    · rw [if_neg hty]
      by_cases hcomp :
          List.insertionSort (· ≤ ·) s.dataNrs = List.insertionSort (· ≤ ·) s.ackNrs
      · rw [if_pos hcomp]
        by_cases hw : s.writer.isSome <;> simp [hw]
      · rw [if_neg hcomp]
        by_cases hw : s.writer.isSome <;> simp [hw]

/-- A closed socket used for the C4 counterexample and witness. -/
def closedSock : UtpSocket :=
  { UtpSocket.init SocketType.read 10 4 with state := some ConnectionState.Closed }

/-- Claim C4, counterexample: a DATA packet arriving on a Closed socket is
not dropped — the handler rewrites the state to `Connected`, advances
`seqNr`, and emits a reply. -/
theorem claim_C4_counterexample :
    closedSock.state = some ConnectionState.Closed ∧
      (closedSock.handleDataPacket ⟨5, 0, 0⟩).1.state =
        some ConnectionState.Connected ∧
      (closedSock.handleDataPacket ⟨5, 0, 0⟩).1.state ≠ closedSock.state ∧
      (closedSock.handleDataPacket ⟨5, 0, 0⟩).1.seqNr ≠ closedSock.seqNr ∧
      (closedSock.handleDataPacket ⟨5, 0, 0⟩).2 = DataReply.plainState := by
  decide

/-- Claim C4, witness: the amended theorem applied to the closed socket and a
DATA (and STATE) packet with sequence number 5. -/
theorem claim_C4_amended_witness :
    (closedSock.handleDataPacket ⟨5, 0, 0⟩).1.state =
        some ConnectionState.Connected ∧
      (closedSock.handleDataPacket ⟨5, 0, 0⟩).1.seqNr = closedSock.seqNr + 1 ∧
      (closedSock.finNr ≠ some (5 : Nat) →
        (closedSock.handleStatePacket ⟨5, 5, 0⟩).1.state =
          some ConnectionState.Connected) :=
  claim_C4_amended closedSock ⟨5, 5, 0⟩ (Or.inl (by decide))

/-! ### RTT update (claim C5) and throttle (claim C6) -/

/-- Claim C5, amended: the RTT update computes `delta = rtt - packet_rtt`,
adds `(|delta| - rtt_var) / 4` to `rtt_var` and `(packet_rtt - rtt) / 8` to
`rtt` (truncated division), and sets the timeout to
`max(500, rtt + 4 * rtt_var)` — the floor is the constant 500 of the code's
time unit (milliseconds per its timer API), not 500 000; consequently the
timeout is always at least 500 after an update. -/
theorem claim_C5_amended (s : UtpSocket) (packetRTT : Int) :
    (s.updateRTT packetRTT).rtt_var =
        s.rtt_var + Int.tdiv (|s.rtt - packetRTT| - s.rtt_var) 4 ∧
      (s.updateRTT packetRTT).rtt = s.rtt + Int.tdiv (packetRTT - s.rtt) 8 ∧
      (s.updateRTT packetRTT).timeout =
        max 500
          ((s.updateRTT packetRTT).rtt + 4 * (s.updateRTT packetRTT).rtt_var) ∧
      500 ≤ (s.updateRTT packetRTT).timeout := by
  refine ⟨rfl, rfl, ?_, ?_⟩
  · simp only [UtpSocket.updateRTT]
    by_cases h :
        s.rtt + Int.tdiv (packetRTT - s.rtt) 8 +
            (s.rtt_var + Int.tdiv (|s.rtt - packetRTT| - s.rtt_var) 4) * 4 > 500
    · rw [if_pos h]
      omega
    · rw [if_neg h]
      omega
  · simp only [UtpSocket.updateRTT]
    by_cases h :
        s.rtt + Int.tdiv (packetRTT - s.rtt) 8 +
            (s.rtt_var + Int.tdiv (|s.rtt - packetRTT| - s.rtt_var) 4) * 4 > 500
    · rw [if_pos h]
      omega
    · rw [if_neg h]

/-- Socket in its constructor state, used to evaluate the RTT update on
concrete input. -/
def rttSock : UtpSocket := UtpSocket.init SocketType.write 10 4

/-- Claim C5, counterexample: from the constructor state (`rtt = 1000`,
`rtt_var = 0`), acking a packet with measured round-trip 1000 sets the
timeout to 1000, which is below the claimed floor of 500 000 microseconds
and differs from `max(500000, rtt + 4 * rtt_var)`. -/
theorem claim_C5_counterexample :
    (rttSock.updateRTT 1000).timeout = 1000 ∧
      ¬ (500000 : Int) ≤ (rttSock.updateRTT 1000).timeout ∧
      (rttSock.updateRTT 1000).timeout ≠
        max 500000
          ((rttSock.updateRTT 1000).rtt + 4 * (rttSock.updateRTT 1000).rtt_var) := by
  decide

/-- Claim C6: after `throttle()` the congestion window equals a single
default packet (the MTU) and the timeout is exactly doubled — in particular
at least double its previous value. -/
theorem claim_C6_throttle (s : UtpSocket) :
    (s.throttle).max_window = DEFAULT_PACKET_SIZE ∧
      (s.throttle).timeout = 2 * s.timeout ∧
      2 * s.timeout ≤ (s.throttle).timeout := by
  refine ⟨rfl, ?_, ?_⟩
  · simp only [UtpSocket.throttle]
    ring
  · simp only [UtpSocket.throttle]
    omega

/-! ### Window accounting (claim C8) -/

/-- Claim C8, amended: after every `sendDataPacket` the congestion window
equals the outgoing-buffer size times the packet size (the packet's `seq_nr`
having been recorded in the buffer); `handleStatePacket` removes nothing
from the outgoing buffer — it leaves the buffer unchanged, and preserves
the window equation whenever it held before the call (recomputing
`cur_window` from the buffer in the attached-writer branch). -/
theorem claim_C8_amended (s : UtpSocket) (p : PacketHeader) :
    (s.sendDataPacket p).cur_window =
        (s.sendDataPacket p).outBuffer.length * DEFAULT_PACKET_SIZE ∧
      (s.sendDataPacket p).outBuffer = obSet s.outBuffer p.seqNr p.timestampMicroseconds ∧
      (s.handleStatePacket p).1.outBuffer = s.outBuffer ∧
      (s.cur_window = s.outBuffer.length * DEFAULT_PACKET_SIZE →
        (s.handleStatePacket p).1.cur_window =
          (s.handleStatePacket p).1.outBuffer.length * DEFAULT_PACKET_SIZE) := by
  have hbuf : (s.handleStatePacket p).1.outBuffer = s.outBuffer := by
    rw [UtpSocket.handleStatePacket]
    by_cases hfin : s.finNr = some p.ackNr
    · rw [if_pos hfin]
    · rw [if_neg hfin]
      by_cases hty : s.type = SocketType.read
      · rw [if_pos hty]
      · rw [if_neg hty]
        by_cases hcomp :
            List.insertionSort (· ≤ ·) s.dataNrs = List.insertionSort (· ≤ ·) s.ackNrs
        · rw [if_pos hcomp]
          by_cases hw : s.writer.isSome <;> simp [hw]
        · rw [if_neg hcomp]
          by_cases hw : s.writer.isSome <;> simp [hw]
  refine ⟨rfl, rfl, hbuf, ?_⟩
  intro hinv
  rw [hbuf]
  rw [UtpSocket.handleStatePacket]
  by_cases hfin : s.finNr = some p.ackNr
  · rw [if_pos hfin]
    exact hinv
  · rw [if_neg hfin]
    by_cases hty : s.type = SocketType.read
    · rw [if_pos hty]
      exact hinv
    · rw [if_neg hty]
      by_cases hcomp :
          List.insertionSort (· ≤ ·) s.dataNrs = List.insertionSort (· ≤ ·) s.ackNrs
      · rw [if_pos hcomp]
        by_cases hw : s.writer.isSome <;> simp [hw, hinv]
      · rw [if_neg hcomp]
        by_cases hw : s.writer.isSome <;> simp [hw, hinv]

/-- Writer socket with one in-flight packet whose STATE ack is being
handled, for the C8 counterexample and witness. -/
def writerSock : UtpSocket :=
  { UtpSocket.init SocketType.write 11 4 with
      state := some ConnectionState.Connected
      outBuffer := [(10, 7)]
      cur_window := DEFAULT_PACKET_SIZE
      dataNrs := [10]
      writer := some true }

/-- Claim C8, counterexample: handling the STATE packet that acknowledges
sequence number 10 does not remove the entry for 10 from the outgoing
buffer — the buffer is unchanged by `handleStatePacket`. -/
theorem claim_C8_counterexample :
    (writerSock.handleStatePacket ⟨12, 10, 0⟩).1.outBuffer = [(10, 7)] ∧
      ((10 : Nat), (7 : Int)) ∈ (writerSock.handleStatePacket ⟨12, 10, 0⟩).1.outBuffer := by
  decide

/-- Claim C8, witness: the amended theorem applied to the writer socket with
one in-flight packet, whose window equation holds before the call. -/
theorem claim_C8_amended_witness :
    (writerSock.sendDataPacket ⟨11, 4, 9⟩).cur_window =
        (writerSock.sendDataPacket ⟨11, 4, 9⟩).outBuffer.length * DEFAULT_PACKET_SIZE ∧
      (writerSock.sendDataPacket ⟨11, 4, 9⟩).outBuffer =
        obSet writerSock.outBuffer 11 9 ∧
      (writerSock.handleStatePacket ⟨11, 4, 9⟩).1.outBuffer = writerSock.outBuffer ∧
      (writerSock.cur_window = writerSock.outBuffer.length * DEFAULT_PACKET_SIZE →
        (writerSock.handleStatePacket ⟨11, 4, 9⟩).1.cur_window =
          (writerSock.handleStatePacket ⟨11, 4, 9⟩).1.outBuffer.length *
            DEFAULT_PACKET_SIZE) :=
  claim_C8_amended writerSock ⟨11, 4, 9⟩

/-! ### Content store round trip (claim C10) -/

/-- Claim C10: `storeContent` always reports `true`, a `getContent` with the
same key returns exactly the stored bytes, and storing again under the same
key overwrites, so the most recent bytes are returned. -/
theorem claim_C10_store_get (d : StateDB) (k c c' : List Nat) :
    (d.storeContent k c).2 = true ∧
      (d.storeContent k c).1.getContent k = some c ∧
      ((d.storeContent k c).1.storeContent k c').1.getContent k = some c' := by
  refine ⟨rfl, ?_, ?_⟩
  · exact lookup_dbPut_self _ _ _
  · exact lookup_dbPut_self _ _ _
